import Mathlib

/-
Verification of the recursive filesystem monitor in
src/ignis/utils/file_monitor.py, as a shallow embedding.

Modelling choices:
* Filesystem paths are lists of components; `os.path.join root d` is
  `root ++ [d]`; native paths never repeat a separator inside a component,
  so this encoding is injective on real paths.
* The native flag and event constants of the underlying platform library
  (Gio) are represented by their numeric values
  (FileMonitorFlags: NONE = 0, WATCH_MOUNTS = 1, SEND_MOVED = 2,
  WATCH_HARD_LINKS = 4, WATCH_MOVES = 8; FileMonitorEvent: CHANGED = 0,
  CHANGES_DONE_HINT = 1, DELETED = 2, CREATED = 3, ATTRIBUTE_CHANGED = 4,
  PRE_UNMOUNT = 5, UNMOUNTED = 6, MOVED = 7, RENAMED = 8, MOVED_IN = 9,
  MOVED_OUT = 10).
* A user callback is abstracted to whether one is set (the truthiness test
  `if self._callback:`); whether an invocation of it raises is a parameter
  of the handler, and the invocation itself is recorded as an action.
* A Python dictionary lookup `d[k]` with a missing key raises KeyError;
  here the dictionaries are functions into Option and a `none` result at a
  lookup site produces the `keyError` outcome.
-/

namespace Ignis

/-- A filesystem path as its list of components. -/
abbrev FsPath := List String

/-- The module-level `FLAGS` dictionary (file_monitor.py, lines 6-13):
keys are the `flags` constructor argument (`None` or one of five string
literals), values the numeric native flag constants.  Any other key is
absent, so looking it up raises KeyError. -/
def FLAGS : Option String → Option Nat
  | none => some 0
  | some "none" => some 0
  | some "watch_mounts" => some 1
  | some "send_moved" => some 2
  | some "watch_hard_links" => some 4
  | some "watch_moves" => some 8
  | some _ => none

/-- The module-level `EVENT` dictionary (lines 15-27): numeric native
event constant to event-type string; the eleven known constants are the
only keys, every other constant is absent (lookup raises KeyError). -/
def EVENT : Nat → Option String
  | 0 => some "changed"
  | 1 => some "changes_done_hint"
  | 10 => some "moved_out"
  | 2 => some "deleted"
  | 3 => some "created"
  | 4 => some "attribute_changed"
  | 5 => some "pre_unmount"
  | 6 => some "unmounted"
  | 7 => some "moved"
  | 8 => some "renamed"
  | 9 => some "moved_in"
  | _ => none

/-- One native watch object (a `Gio.FileMonitor` as used by this module):
the path it was created for, the native flag value it was created with,
and whether its `cancel()` has been called.  A cancelled native watch
emits no further events. -/
structure GMonitor where
  watchedPath : FsPath
  nativeFlags : Nat
  cancelled : Bool
deriving DecidableEq

/-- `Gio.FileMonitor.cancel`: marks the native watch cancelled;
idempotent at the native level. -/
def GMonitor.cancel (g : GMonitor) : GMonitor := { g with cancelled := true }

/-- The state of one `FileMonitor` instance: the attributes set in
`__init__` (lines 92-102).  `monitor` is `self._monitor`, `sub_monitors`
and `sub_paths` are `self._sub_monitors` and `self._sub_paths`;
`callback` records whether `self._callback` is set. -/
structure FileMonitor where
  path : FsPath
  flags : Option String
  callback : Bool
  recursive : Bool
  monitor : GMonitor
  sub_monitors : List GMonitor
  sub_paths : List FsPath
deriving DecidableEq

/-- The exceptions this module's code can raise. -/
inductive PyError where
  | keyError
  | callbackError
deriving DecidableEq

/-- The externally observable actions of the event handler, in program
order: an invocation of the user callback, an emission of the "changed"
signal to subscribers, and the creation of a new native sub-watch. -/
inductive Action where
  | callbackCall (path : FsPath) (event : String)
  | emitChanged (path : FsPath) (event : String)
  | addWatch (path : FsPath) (nativeFlags : Nat)
deriving DecidableEq

/-- `FileMonitor.__add_submonitor` (lines 123-131): if `path` is already
in `self._sub_paths` return immediately; otherwise create a native watch
with `FLAGS[self.flags]` (KeyError if the flags key is absent), connect
it, and append it and the path.  Result: the actions performed, the
exception raised if any, and the state afterwards. -/
def add_submonitor (m : FileMonitor) (path : FsPath) :
    List Action × Option PyError × FileMonitor :=
  if path ∈ m.sub_paths then ([], none, m)
  else
    match FLAGS m.flags with
    | none => ([], some PyError.keyError, m)
    | some nf =>
        ([Action.addWatch path nf], none,
          { m with
            sub_monitors := m.sub_monitors ++ [⟨path, nf, false⟩],
            sub_paths := m.sub_paths ++ [path] })

/-- `FileMonitor.__on_change` (lines 114-121).  `isDir` is the
`os.path.isdir` oracle at handling time; `cbRaises` says whether the user
callback raises when invoked on this event.  Mirrors the source exactly:
the callback block runs first and only when a callback is set (the EVENT
lookup is evaluated before the callback is entered, so an unknown
constant raises KeyError without invoking the callback; an exception
from the callback skips the signal emission); afterwards, if
`self.recursive` and the path is a directory, `__add_submonitor` runs.
An exception anywhere propagates and aborts the rest of the handler. -/
def on_change (m : FileMonitor) (isDir : FsPath → Bool) (cbRaises : Bool)
    (path : FsPath) (event_type : Nat) :
    List Action × Option PyError × FileMonitor :=
  if m.callback then
    match EVENT event_type with
    | none => ([], some PyError.keyError, m)
    | some ev =>
      if cbRaises then
        ([Action.callbackCall path ev], some PyError.callbackError, m)
      else
        if m.recursive && isDir path then
          ([Action.callbackCall path ev, Action.emitChanged path ev]
             ++ (add_submonitor m path).1,
           (add_submonitor m path).2.1, (add_submonitor m path).2.2)
        else
          ([Action.callbackCall path ev, Action.emitChanged path ev], none, m)
  else
    if m.recursive && isDir path then add_submonitor m path
    else ([], none, m)

/-- `FileMonitor.cancel` (lines 153-157): the entire body is
`self._monitor.cancel()` — it cancels the root native watch and nothing
else. -/
def FileMonitor.cancel (m : FileMonitor) : FileMonitor :=
  { m with monitor := m.monitor.cancel }

/-- The same monitor state with the `flags` attribute replaced: used to
compare two monitors that differ only in the flags key they were
constructed with. -/
def setFlags (m : FileMonitor) (fl : Option String) : FileMonitor :=
  { m with flags := fl }

/-- An event source inside one monitor: the root native watch, or the
i-th entry of `self._sub_monitors`. -/
inductive Source where
  | root
  | sub (i : Nat)
deriving DecidableEq

/-- The native watch a source denotes, if it exists. -/
def sourceMonitor (m : FileMonitor) : Source → Option GMonitor
  | Source.root => some m.monitor
  | Source.sub i => m.sub_monitors.get? i

/-- Delivery of one native filesystem event: the platform invokes the
connected handler `__on_change` only when the emitting native watch
exists and has not been cancelled; otherwise the event is discarded. -/
def dispatchEvent (m : FileMonitor) (isDir : FsPath → Bool) (cbRaises : Bool)
    (src : Source) (path : FsPath) (event_type : Nat) :
    List Action × Option PyError × FileMonitor :=
  match sourceMonitor m src with
  | some g =>
      if g.cancelled then ([], none, m)
      else on_change m isDir cbRaises path event_type
  | none => ([], none, m)

/-- A directory tree's subdirectory structure, as a forest of named
subdirectories: `nil` is an empty listing, `cons n c rest` a directory
named `n` with child forest `c`, followed by its siblings `rest`.  Files
are irrelevant: the construction walk only visits `dirs`. -/
inductive DirForest where
  | nil : DirForest
  | cons (name : String) (children : DirForest) (rest : DirForest) : DirForest
deriving DecidableEq

/-- The names of the top-level directories of a forest. -/
def dirNames : DirForest → List String
  | DirForest.nil => []
  | DirForest.cons n _ rest => n :: dirNames rest

/-- The number of directories in a forest, at every depth. -/
def numDirs : DirForest → Nat
  | DirForest.nil => 0
  | DirForest.cons _ c rest => 1 + numDirs c + numDirs rest

/-- The paths one `os.walk` yield contributes: `os.path.join(root, d)`
for each `d` in the yielded `dirs` list. -/
def namesOf (base : FsPath) : DirForest → List FsPath
  | DirForest.nil => []
  | DirForest.cons n _ rest => (base ++ [n]) :: namesOf base rest

/-- The paths contributed by the recursive descent below one directory's
listing: for each child, its own listing's paths followed by its
descent, then the same for the remaining siblings. -/
def walkChildren (base : FsPath) : DirForest → List FsPath
  | DirForest.nil => []
  | DirForest.cons n c rest =>
      (namesOf (base ++ [n]) c ++ walkChildren (base ++ [n]) c)
        ++ walkChildren base rest

/-- The sequence of `subdir_path` arguments the loop at lines 104-108
passes to `__add_submonitor`: `os.walk` is top-down, so each directory's
child names come before the descent into those children. -/
def walkAdds (base : FsPath) (f : DirForest) : List FsPath :=
  namesOf base f ++ walkChildren base f

/-- A well-formed directory listing: sibling names are pairwise distinct
at every level (as in a real filesystem). -/
def wfForest : DirForest → Bool
  | DirForest.nil => true
  | DirForest.cons n c rest =>
      !(dirNames rest).contains n && wfForest c && wfForest rest

/-- `FileMonitor.__init__` (lines 84-112) for a root directory whose
subdirectory structure is `tree`: look up `FLAGS[flags]` (KeyError aborts
construction), create and connect the root native watch, store the
attributes, and when `recursive` walk the tree calling
`__add_submonitor` on every subdirectory path. -/
def initMonitor (tree : DirForest) (path : FsPath) (recursive : Bool)
    (flags : Option String) (callback : Bool) : Except PyError FileMonitor :=
  match FLAGS flags with
  | none => Except.error PyError.keyError
  | some nf =>
    let m0 : FileMonitor :=
      { path := path, flags := flags, callback := callback,
        recursive := recursive, monitor := ⟨path, nf, false⟩,
        sub_monitors := [], sub_paths := [] }
    Except.ok <|
      if recursive then
        (walkAdds path tree).foldl (fun m p => (add_submonitor m p).2.2) m0
      else m0

/-- The module-level `file_monitors` list (line 29): `__init__` appends
the new instance (line 110) so the garbage collector keeps it alive. -/
def registryAppend (w : List FileMonitor) (m : FileMonitor) :
    List FileMonitor := w ++ [m]

/-- Calling `cancel()` on the i-th registered monitor: only that
monitor's own state changes; nothing in the module ever removes an entry
from `file_monitors`. -/
def registryCancel : List FileMonitor → Nat → List FileMonitor
  | [], _ => []
  | m :: rest, 0 => m.cancel :: rest
  | m :: rest, i + 1 => m :: registryCancel rest i

/-- One step of the event loop as it touches one monitor: delivery of a
native event from one of its sources, or a call of its `cancel()`. -/
inductive Step where
  | ev (src : Source) (cbRaises : Bool) (path : FsPath) (event_type : Nat)
  | cancel
deriving DecidableEq

/-- Run one step; the observation is the actions performed and the
exception, if one escaped. -/
def runStep (isDir : FsPath → Bool) (m : FileMonitor) :
    Step → (List Action × Option PyError) × FileMonitor
  | Step.ev s c p e =>
      (((dispatchEvent m isDir c s p e).1, (dispatchEvent m isDir c s p e).2.1),
       (dispatchEvent m isDir c s p e).2.2)
  | Step.cancel => (([], none), m.cancel)

/-- Run a list of steps, collecting one observation per step. -/
def runSteps (isDir : FsPath → Bool) (m : FileMonitor) :
    List Step → List (List Action × Option PyError) × FileMonitor
  | [] => ([], m)
  | s :: rest =>
      let r := runStep isDir m s
      let r2 := runSteps isDir r.2 rest
      (r.1 :: r2.1, r2.2)

/-- Whether an action delivers the event to the callback or to the
subscribers of the "changed" signal. -/
def isDelivery : Action → Bool
  | Action.callbackCall _ _ => true
  | Action.emitChanged _ _ => true
  | Action.addWatch _ _ => false

/-- Whether an action registers a new subdirectory watch. -/
def isAddWatch : Action → Bool
  | Action.addWatch _ _ => true
  | _ => false

/-- A concrete monitor state for counterexamples: recursive, callback
set, root directory "d" watched, one subdirectory watch for "d/a". -/
def exMonitor : FileMonitor :=
  { path := ["d"], flags := none, callback := true, recursive := true,
    monitor := ⟨["d"], 0, false⟩,
    sub_monitors := [⟨["d", "a"], 0, false⟩],
    sub_paths := [["d", "a"]] }

/-- The same concrete state with no callback set. -/
def exMonitorNoCb : FileMonitor :=
  { path := ["d"], flags := none, callback := false, recursive := true,
    monitor := ⟨["d"], 0, false⟩,
    sub_monitors := [⟨["d", "a"], 0, false⟩],
    sub_paths := [["d", "a"]] }

/-- A concrete directory forest: subdirectories a, a/b and c. -/
def exForest : DirForest :=
  DirForest.cons "a" (DirForest.cons "b" DirForest.nil DirForest.nil)
    (DirForest.cons "c" DirForest.nil DirForest.nil)

end Ignis

namespace Ignis

theorem add_submonitor_mem (m : FileMonitor) (p : FsPath)
    (h : p ∈ m.sub_paths) : add_submonitor m p = ([], none, m) := by
  simp [add_submonitor, h]

theorem add_submonitor_new (m : FileMonitor) (p : FsPath) (nf : Nat)
    (h : p ∉ m.sub_paths) (hf : FLAGS m.flags = some nf) :
    add_submonitor m p
      = ([Action.addWatch p nf], none,
         { m with
           sub_monitors := m.sub_monitors ++ [⟨p, nf, false⟩],
           sub_paths := m.sub_paths ++ [p] }) := by
  simp [add_submonitor, h, hf]

theorem add_submonitor_nokey (m : FileMonitor) (p : FsPath)
    (h : p ∉ m.sub_paths) (hf : FLAGS m.flags = none) :
    add_submonitor m p = ([], some PyError.keyError, m) := by
  simp [add_submonitor, h, hf]

theorem add_submonitor_acts (m : FileMonitor) (p : FsPath) :
    ∀ a ∈ (add_submonitor m p).1, ∃ q nf, a = Action.addWatch q nf := by
  intro a ha
  by_cases h : p ∈ m.sub_paths
  · rw [add_submonitor_mem m p h] at ha
    simp at ha
  · cases hf : FLAGS m.flags with
    | none =>
        rw [add_submonitor_nokey m p h hf] at ha
        simp at ha
    | some nf =>
        rw [add_submonitor_new m p nf h hf] at ha
        simp at ha
        exact ⟨p, nf, ha⟩

theorem add_submonitor_err_none (m : FileMonitor) (p : FsPath) (nf : Nat)
    (hf : FLAGS m.flags = some nf) : (add_submonitor m p).2.1 = none := by
  by_cases h : p ∈ m.sub_paths
  · rw [add_submonitor_mem m p h]
  · rw [add_submonitor_new m p nf h hf]

theorem registryCancel_length (w : List FileMonitor) :
    ∀ i, (registryCancel w i).length = w.length := by
  induction w with
  | nil => intro i; rfl
  | cons m rest ih =>
      intro i
      cases i with
      | zero => simp [registryCancel]
      | succ j => simp [registryCancel, ih j]

/-- C1 (amended): `cancel()` cancels only the root native watch: the
subdirectory watch nodes are left un-released, the subdirectory mapping
(`_sub_monitors`/`_sub_paths`) is unchanged, every other attribute is
unchanged, and calling `cancel()` on a registered monitor never removes
an entry from the keep-alive registry `file_monitors`. -/
theorem C1_cancel_only_root (m : FileMonitor) :
    (FileMonitor.cancel m).monitor.cancelled = true
    ∧ (FileMonitor.cancel m).monitor.watchedPath = m.monitor.watchedPath
    ∧ (FileMonitor.cancel m).sub_monitors = m.sub_monitors
    ∧ (FileMonitor.cancel m).sub_paths = m.sub_paths
    ∧ (FileMonitor.cancel m).path = m.path
    ∧ (FileMonitor.cancel m).flags = m.flags
    ∧ (FileMonitor.cancel m).callback = m.callback
    ∧ (FileMonitor.cancel m).recursive = m.recursive
    ∧ ∀ (w : List FileMonitor) (i : Nat),
        (registryCancel w i).length = w.length := by
  refine ⟨rfl, rfl, rfl, rfl, rfl, rfl, rfl, rfl, ?_⟩
  intro w i
  exact registryCancel_length w i

/-- C1 fails on the code: at a concrete cancelled monitor the
subdirectory mapping is not cleared, the subdirectory node is not
released, and the registry keeps its entry. -/
theorem C1_counterexample :
    ¬((FileMonitor.cancel exMonitor).sub_paths = []
      ∧ (∀ g ∈ (FileMonitor.cancel exMonitor).sub_monitors,
          g.cancelled = true)
      ∧ (registryCancel [exMonitor] 0).length = 0) := by
  decide

/-- C2 fails on the code: after `cancel()`, an event arriving from the
still-live subdirectory watch is dispatched, invoking the callback and
emitting the "changed" signal. -/
theorem C2_callback_after_cancel :
    (dispatchEvent (FileMonitor.cancel exMonitor) (fun _ => false) false
        (Source.sub 0) ["d", "a"] 0).1
      = [Action.callbackCall ["d", "a"] "changed",
         Action.emitChanged ["d", "a"] "changed"] := by
  decide

/-- C3 fails on the code: a native constant outside the known set (99) is
not silently dropped when a callback is set — the `EVENT` lookup raises a
missing-key error. -/
theorem C3_counterexample :
    (on_change exMonitor (fun _ => false) false ["d", "x"] 99).2.1
      = some PyError.keyError := by
  decide

/-- C3 (amended): an event whose native constant is outside the known
set of eleven is never surfaced to the callback or to subscribers, but
it is not always dropped silently: when a callback is set, the `EVENT`
lookup raises a missing-key error that ends that event's handling (state
unchanged); only when no callback is set does handling continue without
error. -/
theorem C3_unmapped_events (m : FileMonitor) (isDir : FsPath → Bool)
    (cbRaises : Bool) (p : FsPath) (e : Nat) (nf : Nat)
    (he : EVENT e = none) (hf : FLAGS m.flags = some nf) :
    (∀ a ∈ (on_change m isDir cbRaises p e).1,
        (∀ q s, a ≠ Action.callbackCall q s)
        ∧ (∀ q s, a ≠ Action.emitChanged q s))
    ∧ (m.callback = true →
        on_change m isDir cbRaises p e = ([], some PyError.keyError, m))
    ∧ (m.callback = false →
        (on_change m isDir cbRaises p e).2.1 = none) := by
  cases hcb : m.callback with
  | true =>
      refine ⟨?_, fun _ => by simp [on_change, hcb, he],
        fun hff => absurd hff (by decide)⟩
      intro a ha
      simp [on_change, hcb, he] at ha
  | false =>
      have hbranch : on_change m isDir cbRaises p e
          = if m.recursive && isDir p then add_submonitor m p
            else ([], none, m) := by
        simp [on_change, hcb]
      refine ⟨?_, fun htt => absurd htt (by decide), fun _ => ?_⟩
      · intro a ha
        rw [hbranch] at ha
        by_cases hrd : m.recursive && isDir p
        · rw [if_pos hrd] at ha
          obtain ⟨q, nf2, rfl⟩ := add_submonitor_acts m p a ha
          exact ⟨fun q2 s h => by simp at h, fun q2 s h => by simp at h⟩
        · rw [if_neg hrd] at ha
          simp at ha
      · rw [hbranch]
        by_cases hrd : m.recursive && isDir p
        · rw [if_pos hrd]
          exact add_submonitor_err_none m p nf hf
        · rw [if_neg hrd]

/-- C4 fails on the code: the callback is invoked with no surrounding
try/except, so at a concrete event an exception raised by the callback
escapes the handler. -/
theorem C4_counterexample :
    (on_change exMonitor (fun _ => false) true ["d", "x"] 0).2.1
      = some PyError.callbackError := by
  decide

/-- C4 (amended): an exception raised by the registered callback is not
caught anywhere in the monitor's event handling: `__on_change` ends with
exactly that exception escaping, after the callback invocation and before
the signal emission and the subdirectory-registration step, which do not
run; the monitor's state is unchanged. -/
theorem C4_callback_exception_escapes (m : FileMonitor)
    (isDir : FsPath → Bool) (p : FsPath) (e : Nat) (ev : String)
    (hcb : m.callback = true) (he : EVENT e = some ev) :
    on_change m isDir true p e
      = ([Action.callbackCall p ev], some PyError.callbackError, m) := by
  simp [on_change, hcb, he]

theorem C4_callback_exception_escapes_witness :
    on_change exMonitor (fun _ => false) true ["d", "x"] 0
      = ([Action.callbackCall ["d", "x"] "changed"],
         some PyError.callbackError, exMonitor) :=
  C4_callback_exception_escapes exMonitor (fun _ => false) ["d", "x"] 0
    "changed" (by decide) (by decide)

/-- C5: subdirectory registration is idempotent — handling a `Created`
event (native constant 3) for a path that already has a watch node
leaves the monitor's state (in particular the set of watched paths and
the list of native sub-watches) unchanged and creates no new watch. -/
theorem C5_registration_idempotent (m : FileMonitor)
    (isDir : FsPath → Bool) (cbRaises : Bool) (p : FsPath)
    (hrec : m.recursive = true) (hp : p ∈ m.sub_paths) :
    (on_change m isDir cbRaises p 3).2.2 = m
    ∧ ∀ a ∈ (on_change m isDir cbRaises p 3).1, isAddWatch a = false := by
  have hadd := add_submonitor_mem m p hp
  have hev : EVENT 3 = some "created" := rfl
  cases hcb : m.callback with
  | true =>
      cases cbRaises with
      | true =>
          constructor
          · simp [on_change, hcb, hev]
          · intro a ha
            simp [on_change, hcb, hev] at ha
            subst ha
            rfl
      | false =>
          by_cases hd : isDir p
          · constructor
            · simp [on_change, hcb, hev, hrec, hd, hadd]
            · intro a ha
              simp [on_change, hcb, hev, hrec, hd, hadd] at ha
              rcases ha with rfl | rfl <;> rfl
          · constructor
            · simp [on_change, hcb, hev, hrec, hd]
            · intro a ha
              simp [on_change, hcb, hev, hrec, hd] at ha
              rcases ha with rfl | rfl <;> rfl
  | false =>
      by_cases hd : isDir p
      · constructor
        · simp [on_change, hcb, hrec, hd, hadd]
        · intro a ha
          simp [on_change, hcb, hrec, hd, hadd] at ha
      · constructor
        · simp [on_change, hcb, hrec, hd]
        · intro a ha
          simp [on_change, hcb, hrec, hd] at ha

theorem C5_registration_idempotent_witness :
    (on_change exMonitor (fun _ => true) false ["d", "a"] 3).2.2 = exMonitor
    ∧ ∀ a ∈ (on_change exMonitor (fun _ => true) false ["d", "a"] 3).1,
        isAddWatch a = false :=
  C5_registration_idempotent exMonitor (fun _ => true) false ["d", "a"]
    (by decide) (by decide)

/-- C7 fails on the code: the emission of the "changed" signal sits
inside `if self._callback:`, so with no callback set a mapped `Changed`
event produces no subscriber delivery at all (the handler performs no
action on a file path). -/
theorem C7_no_subscribers_without_callback :
    (on_change exMonitorNoCb (fun _ => false) false ["d", "x"] 0).1
      = [] := by
  decide

/-- C8 fails on the code: for a recursive, not-cancelled monitor with a
callback, handling `Created` (native constant 3) for a fresh directory
performs the callback invocation first, the signal emission second and
the watch registration third — registration is not before delivery. -/
theorem C8_counterexample :
    (on_change exMonitor (fun _ => true) false ["d", "b"] 3).1
      = [Action.callbackCall ["d", "b"] "created",
         Action.emitChanged ["d", "b"] "created",
         Action.addWatch ["d", "b"] 0]
    ∧ (on_change exMonitor (fun _ => true) false ["d", "b"] 3).1.findIdx
        isDelivery = 0
    ∧ (on_change exMonitor (fun _ => true) false ["d", "b"] 3).1.findIdx
        isAddWatch = 2 := by
  decide

/-- C8 (amended): for a recursive, not-cancelled monitor whose callback
is set and does not raise, handling a `Created` event for a fresh
directory path runs the subdirectory-registration step synchronously in
the same handler invocation, but after delivery of the event to the
callback and to subscribers. -/
theorem C8_registration_after_delivery (m : FileMonitor)
    (isDir : FsPath → Bool) (p : FsPath) (nf : Nat)
    (_hcanc : m.monitor.cancelled = false) (hcb : m.callback = true)
    (hrec : m.recursive = true) (hdir : isDir p = true)
    (hnew : p ∉ m.sub_paths) (hf : FLAGS m.flags = some nf) :
    on_change m isDir false p 3
      = ([Action.callbackCall p "created", Action.emitChanged p "created",
          Action.addWatch p nf], none,
         { m with
           sub_monitors := m.sub_monitors ++ [⟨p, nf, false⟩],
           sub_paths := m.sub_paths ++ [p] }) := by
  have hadd := add_submonitor_new m p nf hnew hf
  simp [on_change, hcb, hrec, hdir, hadd, EVENT]

theorem C8_registration_after_delivery_witness :
    on_change exMonitor (fun _ => true) false ["d", "b"] 3
      = ([Action.callbackCall ["d", "b"] "created",
          Action.emitChanged ["d", "b"] "created",
          Action.addWatch ["d", "b"] 0], none,
         { exMonitor with
           sub_monitors := exMonitor.sub_monitors ++ [⟨["d", "b"], 0, false⟩],
           sub_paths := exMonitor.sub_paths ++ [["d", "b"]] }) :=
  C8_registration_after_delivery exMonitor (fun _ => true) ["d", "b"] 0
    (by decide) (by decide) (by decide) (by decide) (by decide) (by decide)

/-- C9: a flag literal outside the closed set fails construction
synchronously with the missing-key error of the `FLAGS` lookup (the
spec's `UnsupportedFlag`): no monitor object is produced. -/
theorem C9_unknown_flag_fails (tree : DirForest) (path : FsPath)
    (recursive callback : Bool) (s : String)
    (h1 : s ≠ "none") (h2 : s ≠ "watch_mounts") (h3 : s ≠ "send_moved")
    (h4 : s ≠ "watch_hard_links") (h5 : s ≠ "watch_moves") :
    initMonitor tree path recursive (some s) callback
      = Except.error PyError.keyError := by
  have hs : FLAGS (some s) = none := by
    unfold FLAGS
    split <;> simp_all
  simp [initMonitor, hs]

theorem C9_unknown_flag_fails_witness :
    initMonitor DirForest.nil ["d"] false (some "bogus") false
      = Except.error PyError.keyError :=
  C9_unknown_flag_fails DirForest.nil ["d"] false false "bogus"
    (by decide) (by decide) (by decide) (by decide) (by decide)

theorem namesOf_eq_map (base : FsPath) (f : DirForest) :
    namesOf base f = (dirNames f).map (fun n => base ++ [n]) := by
  induction f with
  | nil => rfl
  | cons n c rest ihc ihr => simp [namesOf, dirNames, ihr]

theorem walkAdds_cons (base : FsPath) (n : String) (c rest : DirForest) :
    walkAdds base (DirForest.cons n c rest)
      = (base ++ [n])
        :: (namesOf base rest
            ++ (walkAdds (base ++ [n]) c ++ walkChildren base rest)) := by
  simp [walkAdds, namesOf, walkChildren, List.append_assoc]

theorem walkAdds_cons_perm (base : FsPath) (n : String) (c rest : DirForest) :
    (walkAdds base (DirForest.cons n c rest)).Perm
      ((base ++ [n]) :: (walkAdds (base ++ [n]) c ++ walkAdds base rest)) := by
  rw [walkAdds_cons]
  refine List.Perm.cons _ ?_
  have h1 : namesOf base rest
        ++ (walkAdds (base ++ [n]) c ++ walkChildren base rest)
      = (namesOf base rest ++ walkAdds (base ++ [n]) c)
        ++ walkChildren base rest := (List.append_assoc _ _ _).symm
  have h2 : walkAdds base rest = namesOf base rest ++ walkChildren base rest :=
    rfl
  rw [h1, h2, ← List.append_assoc]
  exact List.perm_append_comm.append_right _

theorem mem_walkAdds_prefix (f : DirForest) :
    ∀ (base p : FsPath), p ∈ walkAdds base f →
      ∃ n, n ∈ dirNames f ∧ (base ++ [n]) <+: p := by
  induction f with
  | nil =>
      intro base p hp
      simp [walkAdds, namesOf, walkChildren] at hp
  | cons n c rest ihc ihr =>
      intro base p hp
      rw [walkAdds_cons] at hp
      rcases List.mem_cons.mp hp with rfl | hp2
      · exact ⟨n, by simp [dirNames], List.prefix_refl _⟩
      rcases List.mem_append.mp hp2 with hp3 | hp4
      · rw [namesOf_eq_map] at hp3
        obtain ⟨k, hk, rfl⟩ := List.mem_map.mp hp3
        exact ⟨k, by simp [dirNames, hk], List.prefix_refl _⟩
      rcases List.mem_append.mp hp4 with hp5 | hp6
      · obtain ⟨k, hk, hpre⟩ := ihc (base ++ [n]) p hp5
        exact ⟨n, by simp [dirNames],
          List.IsPrefix.trans (List.prefix_append _ _) hpre⟩
      · have hp7 : p ∈ walkAdds base rest := by
          have h2 : walkAdds base rest
              = namesOf base rest ++ walkChildren base rest := rfl
          rw [h2]
          exact List.mem_append_right _ hp6
        obtain ⟨k, hk, hpre⟩ := ihr base p hp7
        exact ⟨k, by simp [dirNames, hk], hpre⟩

theorem mem_walkAdds_length (f : DirForest) (base p : FsPath)
    (hp : p ∈ walkAdds base f) : base.length < p.length := by
  obtain ⟨n, _, hpre⟩ := mem_walkAdds_prefix f base p hp
  have h := hpre.length_le
  simp at h
  omega

theorem getElem_of_append_prefix (base : FsPath) (k : String) (p : FsPath)
    (h : (base ++ [k]) <+: p) : p[base.length]? = some k := by
  obtain ⟨t, rfl⟩ := h
  rw [List.append_assoc, List.getElem?_append_right (le_refl base.length)]
  simp

theorem getElem_of_mem_walkAdds (f : DirForest) (base : FsPath) (n : String)
    (p : FsPath) (hp : p ∈ walkAdds (base ++ [n]) f) :
    p[base.length]? = some n := by
  obtain ⟨k, _, hpre⟩ := mem_walkAdds_prefix f (base ++ [n]) p hp
  exact getElem_of_append_prefix base n p
    (List.IsPrefix.trans (List.prefix_append _ _) hpre)

theorem wfForest_cons (n : String) (c rest : DirForest)
    (h : wfForest (DirForest.cons n c rest) = true) :
    n ∉ dirNames rest ∧ wfForest c = true ∧ wfForest rest = true := by
  simp only [wfForest, Bool.and_eq_true, Bool.not_eq_true'] at h
  obtain ⟨⟨h1, h2⟩, h3⟩ := h
  refine ⟨?_, h2, h3⟩
  simpa using h1

theorem walkAdds_nodup (f : DirForest) :
    ∀ base : FsPath, wfForest f = true → (walkAdds base f).Nodup := by
  induction f with
  | nil =>
      intro base _
      simp [walkAdds, namesOf, walkChildren]
  | cons n c rest ihc ihr =>
      intro base hwf
      obtain ⟨hn, hc, hr⟩ := wfForest_cons n c rest hwf
      refine (walkAdds_cons_perm base n c rest).nodup_iff.mpr ?_
      refine List.Nodup.cons ?_ (List.Nodup.append (ihc _ hc) (ihr _ hr) ?_)
      · intro hmem
        rcases List.mem_append.mp hmem with hW | hR
        · exact absurd (mem_walkAdds_length c (base ++ [n]) (base ++ [n]) hW)
            (lt_irrefl _)
        · obtain ⟨k, hk, hpre⟩ := mem_walkAdds_prefix rest base (base ++ [n]) hR
          have hlen : (base ++ [k]).length = (base ++ [n]).length := by simp
          have heq := hpre.eq_of_length hlen
          have hkn : k = n := by
            have h2 := List.append_cancel_left heq
            simpa using h2
          subst hkn
          exact hn hk
      · intro p hpW hpR
        have h1 := getElem_of_mem_walkAdds c base n p hpW
        obtain ⟨k, hk, hpre⟩ := mem_walkAdds_prefix rest base p hpR
        have h2 := getElem_of_append_prefix base k p hpre
        rw [h1] at h2
        injection h2 with h3
        subst h3
        exact hn hk

theorem walkAdds_length (f : DirForest) :
    ∀ base : FsPath, (walkAdds base f).length = numDirs f := by
  induction f with
  | nil => intro base; rfl
  | cons n c rest ihc ihr =>
      intro base
      rw [(walkAdds_cons_perm base n c rest).length_eq]
      simp [numDirs, ihc, ihr]
      omega

theorem foldl_add_submonitor (nf : Nat) :
    ∀ (l : List FsPath) (m : FileMonitor), FLAGS m.flags = some nf →
      l.Nodup → (∀ p ∈ l, p ∉ m.sub_paths) →
      l.foldl (fun m2 p => (add_submonitor m2 p).2.2) m
        = { m with
            sub_monitors := m.sub_monitors
              ++ l.map (fun p => ⟨p, nf, false⟩),
            sub_paths := m.sub_paths ++ l } := by
  intro l
  induction l with
  | nil =>
      intro m hf _ _
      simp
  | cons p t ih =>
      intro m hf hnd hnin
      have hp : p ∉ m.sub_paths := hnin p (List.mem_cons_self p t)
      have hstep : ∀ q ∈ t, q ∉ m.sub_paths ++ [p] := by
        intro q hq hmem
        rcases List.mem_append.mp hmem with hm1 | hm2
        · exact hnin q (List.mem_cons_of_mem p hq) hm1
        · have hqp : q = p := by simpa using hm2
          subst hqp
          exact (List.nodup_cons.mp hnd).1 hq
      rw [List.foldl_cons, add_submonitor_new m p nf hp hf,
        ih _ (by simpa using hf) (List.nodup_cons.mp hnd).2 hstep]
      simp [List.append_assoc]

/-- C6: constructing a recursive monitor over a tree with `numDirs tree`
pre-existing subdirectories (at any depth, sibling names distinct as on a
real filesystem) succeeds and leaves the root native watch plus exactly
one sub-watch per subdirectory, all live (not cancelled) and with
pairwise-distinct watched paths, the root's included. -/
theorem C6_construction_watch_set (tree : DirForest) (path : FsPath)
    (flags : Option String) (callback : Bool) (nf : Nat)
    (hf : FLAGS flags = some nf) (hwf : wfForest tree = true) :
    ∃ m, initMonitor tree path true flags callback = Except.ok m
      ∧ m.sub_paths = walkAdds path tree
      ∧ m.sub_paths.length = numDirs tree
      ∧ m.sub_paths.Nodup
      ∧ path ∉ m.sub_paths
      ∧ m.monitor = ⟨path, nf, false⟩
      ∧ m.sub_monitors
          = (walkAdds path tree).map (fun p => ⟨p, nf, false⟩) := by
  have hfold := foldl_add_submonitor nf (walkAdds path tree)
    { path := path, flags := flags, callback := callback, recursive := true,
      monitor := ⟨path, nf, false⟩, sub_monitors := [], sub_paths := [] }
    (by simpa using hf) (walkAdds_nodup tree path hwf)
    (by intro q hq; simp)
  refine ⟨{ path := path, flags := flags, callback := callback,
            recursive := true, monitor := ⟨path, nf, false⟩,
            sub_monitors := (walkAdds path tree).map (fun p => ⟨p, nf, false⟩),
            sub_paths := walkAdds path tree },
          ?_, rfl, walkAdds_length tree path, walkAdds_nodup tree path hwf,
          ?_, rfl, rfl⟩
  · simp only [initMonitor, hf, if_true]
    rw [hfold]
    simp
  · intro hmem
    exact absurd (mem_walkAdds_length tree path path hmem) (lt_irrefl _)

theorem C6_construction_watch_set_witness :
    ∃ m, initMonitor exForest ["d"] true none true = Except.ok m
      ∧ m.sub_paths = walkAdds ["d"] exForest
      ∧ m.sub_paths.length = numDirs exForest
      ∧ m.sub_paths.Nodup
      ∧ ["d"] ∉ m.sub_paths
      ∧ m.monitor = ⟨["d"], 0, false⟩
      ∧ m.sub_monitors
          = (walkAdds ["d"] exForest).map (fun p => ⟨p, 0, false⟩) :=
  C6_construction_watch_set exForest ["d"] none true 0 (by decide) (by decide)

theorem C3_unmapped_events_witness :
    ((∀ a ∈ (on_change exMonitor (fun _ => false) false ["d", "x"] 99).1,
        (∀ q s, a ≠ Action.callbackCall q s)
        ∧ (∀ q s, a ≠ Action.emitChanged q s))
    ∧ (exMonitor.callback = true →
        on_change exMonitor (fun _ => false) false ["d", "x"] 99
          = ([], some PyError.keyError, exMonitor))
    ∧ (exMonitor.callback = false →
        (on_change exMonitor (fun _ => false) false ["d", "x"] 99).2.1
          = none))
    ∧ ((∀ a ∈ (on_change exMonitorNoCb (fun _ => true) false ["d", "x"] 99).1,
        (∀ q s, a ≠ Action.callbackCall q s)
        ∧ (∀ q s, a ≠ Action.emitChanged q s))
    ∧ (exMonitorNoCb.callback = true →
        on_change exMonitorNoCb (fun _ => true) false ["d", "x"] 99
          = ([], some PyError.keyError, exMonitorNoCb))
    ∧ (exMonitorNoCb.callback = false →
        (on_change exMonitorNoCb (fun _ => true) false ["d", "x"] 99).2.1
          = none)) :=
  ⟨C3_unmapped_events exMonitor (fun _ => false) false ["d", "x"] 99 0
      (by decide) (by decide),
   C3_unmapped_events exMonitorNoCb (fun _ => true) false ["d", "x"] 99 0
      (by decide) (by decide)⟩

end Ignis

namespace Ignis

theorem add_submonitor_flags (m : FileMonitor) (p : FsPath) :
    (add_submonitor m p).2.2.flags = m.flags := by
  by_cases hp : p ∈ m.sub_paths
  · rw [add_submonitor_mem m p hp]
  · cases hf : FLAGS m.flags with
    | none => rw [add_submonitor_nokey m p hp hf]
    | some nf => rw [add_submonitor_new m p nf hp hf]

theorem add_submonitor_setFlags (m : FileMonitor) (fl : Option String)
    (p : FsPath) (h : FLAGS fl = FLAGS m.flags) :
    add_submonitor (setFlags m fl) p
      = ((add_submonitor m p).1, (add_submonitor m p).2.1,
         setFlags (add_submonitor m p).2.2 fl) := by
  by_cases hp : p ∈ m.sub_paths
  · rw [add_submonitor_mem m p hp, add_submonitor_mem (setFlags m fl) p hp]
  · cases hf : FLAGS m.flags with
    | none =>
        rw [add_submonitor_nokey m p hp hf,
          add_submonitor_nokey (setFlags m fl) p hp (h.trans hf)]
    | some nf =>
        rw [add_submonitor_new m p nf hp hf,
          add_submonitor_new (setFlags m fl) p nf hp (h.trans hf)]
        rfl

theorem on_change_flags (m : FileMonitor) (isDir : FsPath → Bool)
    (cb : Bool) (p : FsPath) (e : Nat) :
    (on_change m isDir cb p e).2.2.flags = m.flags := by
  cases hcb : m.callback with
  | true =>
      cases he : EVENT e with
      | none => simp [on_change, hcb, he]
      | some ev =>
          cases cb with
          | true => simp [on_change, hcb, he]
          | false =>
              cases hrd : m.recursive && isDir p with
              | true => simp [on_change, hcb, he, hrd, add_submonitor_flags]
              | false => simp [on_change, hcb, he, hrd]
  | false =>
      cases hrd : m.recursive && isDir p with
      | true => simp [on_change, hcb, hrd, add_submonitor_flags]
      | false => simp [on_change, hcb, hrd]

theorem setFlags_callback (m : FileMonitor) (fl : Option String) :
    (setFlags m fl).callback = m.callback := rfl

theorem setFlags_recursive (m : FileMonitor) (fl : Option String) :
    (setFlags m fl).recursive = m.recursive := rfl

theorem on_change_setFlags (m : FileMonitor) (fl : Option String)
    (isDir : FsPath → Bool) (cb : Bool) (p : FsPath) (e : Nat)
    (h : FLAGS fl = FLAGS m.flags) :
    on_change (setFlags m fl) isDir cb p e
      = ((on_change m isDir cb p e).1, (on_change m isDir cb p e).2.1,
         setFlags (on_change m isDir cb p e).2.2 fl) := by
  have hadd := add_submonitor_setFlags m fl p h
  cases hcb : m.callback with
  | true =>
      cases he : EVENT e with
      | none => simp [on_change, setFlags_callback, hcb, he]
      | some ev =>
          cases cb with
          | true => simp [on_change, setFlags_callback, hcb, he]
          | false =>
              cases hrd : m.recursive && isDir p with
              | true =>
                  simp [on_change, setFlags_callback, setFlags_recursive,
                    hcb, he, hrd, hadd]
              | false =>
                  simp [on_change, setFlags_callback, setFlags_recursive,
                    hcb, he, hrd]
  | false =>
      cases hrd : m.recursive && isDir p with
      | true =>
          simp [on_change, setFlags_callback, setFlags_recursive,
            hcb, hrd, hadd]
      | false =>
          simp [on_change, setFlags_callback, setFlags_recursive, hcb, hrd]

theorem sourceMonitor_setFlags (m : FileMonitor) (fl : Option String)
    (s : Source) :
    sourceMonitor (setFlags m fl) s = sourceMonitor m s := by
  cases s <;> rfl

theorem dispatchEvent_flags (m : FileMonitor) (isDir : FsPath → Bool)
    (cb : Bool) (s : Source) (p : FsPath) (e : Nat) :
    (dispatchEvent m isDir cb s p e).2.2.flags = m.flags := by
  cases hsm : sourceMonitor m s with
  | none => simp [dispatchEvent, hsm]
  | some g =>
      cases hg : g.cancelled with
      | true => simp [dispatchEvent, hsm, hg]
      | false => simp [dispatchEvent, hsm, hg, on_change_flags]

theorem dispatchEvent_setFlags (m : FileMonitor) (fl : Option String)
    (isDir : FsPath → Bool) (cb : Bool) (s : Source) (p : FsPath) (e : Nat)
    (h : FLAGS fl = FLAGS m.flags) :
    dispatchEvent (setFlags m fl) isDir cb s p e
      = ((dispatchEvent m isDir cb s p e).1,
         (dispatchEvent m isDir cb s p e).2.1,
         setFlags (dispatchEvent m isDir cb s p e).2.2 fl) := by
  have hoc := on_change_setFlags m fl isDir cb p e h
  cases hsm : sourceMonitor m s with
  | none => simp [dispatchEvent, sourceMonitor_setFlags, hsm]
  | some g =>
      cases hg : g.cancelled with
      | true => simp [dispatchEvent, sourceMonitor_setFlags, hsm, hg]
      | false => simp [dispatchEvent, sourceMonitor_setFlags, hsm, hg, hoc]

theorem runStep_flags (isDir : FsPath → Bool) (m : FileMonitor) (st : Step) :
    (runStep isDir m st).2.flags = m.flags := by
  cases st with
  | ev s c p e => simp [runStep, dispatchEvent_flags]
  | cancel => rfl

theorem cancel_setFlags (m : FileMonitor) (fl : Option String) :
    FileMonitor.cancel (setFlags m fl) = setFlags m.cancel fl := rfl

theorem runStep_setFlags (isDir : FsPath → Bool) (m : FileMonitor)
    (fl : Option String) (st : Step) (h : FLAGS fl = FLAGS m.flags) :
    runStep isDir (setFlags m fl) st
      = ((runStep isDir m st).1, setFlags (runStep isDir m st).2 fl) := by
  cases st with
  | ev s c p e => simp [runStep, dispatchEvent_setFlags m fl isDir c s p e h]
  | cancel => simp [runStep, cancel_setFlags]

theorem runSteps_setFlags (isDir : FsPath → Bool) :
    ∀ (steps : List Step) (m : FileMonitor) (fl : Option String),
      FLAGS fl = FLAGS m.flags →
      runSteps isDir (setFlags m fl) steps
        = ((runSteps isDir m steps).1,
           setFlags (runSteps isDir m steps).2 fl) := by
  intro steps
  induction steps with
  | nil => intro m fl h; rfl
  | cons st rest ih =>
      intro m fl h
      have h2 : FLAGS fl = FLAGS (runStep isDir m st).2.flags := by
        rw [runStep_flags]
        exact h
      simp only [runSteps, runStep_setFlags isDir m fl st h,
        ih (runStep isDir m st).2 fl h2]

theorem foldl_add_flags (l : List FsPath) :
    ∀ m : FileMonitor,
      (l.foldl (fun m2 p => (add_submonitor m2 p).2.2) m).flags = m.flags := by
  induction l with
  | nil => intro m; rfl
  | cons p t ih =>
      intro m
      simp only [List.foldl_cons]
      rw [ih, add_submonitor_flags]

theorem foldl_setFlags (l : List FsPath) :
    ∀ (m : FileMonitor) (fl : Option String), FLAGS fl = FLAGS m.flags →
      l.foldl (fun m2 p => (add_submonitor m2 p).2.2) (setFlags m fl)
        = setFlags (l.foldl (fun m2 p => (add_submonitor m2 p).2.2) m) fl := by
  induction l with
  | nil => intro m fl h; rfl
  | cons p t ih =>
      intro m fl h
      simp only [List.foldl_cons]
      have hstep : (add_submonitor (setFlags m fl) p).2.2
          = setFlags (add_submonitor m p).2.2 fl := by
        rw [add_submonitor_setFlags m fl p h]
      rw [hstep]
      exact ih (add_submonitor m p).2.2 fl
        (by rw [add_submonitor_flags]; exact h)

theorem initMonitor_setFlags (tree : DirForest) (path : FsPath)
    (recursive callback : Bool) (fl fl2 : Option String) (nf : Nat)
    (h : FLAGS fl = some nf) (h2 : FLAGS fl2 = some nf) :
    initMonitor tree path recursive fl2 callback
      = (initMonitor tree path recursive fl callback).map
          (fun m => setFlags m fl2) := by
  simp only [initMonitor, h, h2, Except.map]
  cases recursive with
  | false => rfl
  | true =>
      simp only [if_true]
      congr 1
      exact foldl_setFlags (walkAdds path tree)
        { path := path, flags := fl, callback := callback, recursive := true,
          monitor := ⟨path, nf, false⟩, sub_monitors := [], sub_paths := [] }
        fl2 (by rw [h2, h])

theorem initMonitor_flags (tree : DirForest) (path : FsPath)
    (recursive callback : Bool) (fl : Option String) (m : FileMonitor)
    (h : initMonitor tree path recursive fl callback = Except.ok m) :
    m.flags = fl := by
  unfold initMonitor at h
  cases hF : FLAGS fl with
  | none => rw [hF] at h; cases h
  | some nf =>
      rw [hF] at h
      injection h with h2
      rw [← h2]
      cases recursive with
      | false => rfl
      | true =>
          simp only [if_true]
          rw [foldl_add_flags]

/-- C10: the `FLAGS` dictionary sends `None` and the literal string
"none" to the same native flag value, and two monitors constructed
identically except for that difference produce the same observations
(actions performed and exceptions escaping) on every sequence of
delivered events and `cancel()` calls. -/
theorem C10_none_flag_equivalence :
    FLAGS none = FLAGS (some "none")
    ∧ ∀ (tree : DirForest) (path : FsPath) (recursive callback : Bool)
        (isDir : FsPath → Bool) (steps : List Step),
        (initMonitor tree path recursive none callback).map
            (fun m => (runSteps isDir m steps).1)
          = (initMonitor tree path recursive (some "none") callback).map
            (fun m => (runSteps isDir m steps).1) := by
  refine ⟨rfl, ?_⟩
  intro tree path recursive callback isDir steps
  rw [initMonitor_setFlags tree path recursive callback none (some "none") 0
    rfl rfl]
  cases hinit : initMonitor tree path recursive none callback with
  | error e => rfl
  | ok m =>
      simp only [Except.map]
      have hfl : m.flags = none :=
        initMonitor_flags tree path recursive callback none m hinit
      rw [runSteps_setFlags isDir steps m (some "none") (by rw [hfl]; decide)]

end Ignis
